import Mathlib

/-!
Verification of the grad-cafe crawl-and-normalize pipeline
(`src/module_5/src/scrape.py` and `src/module_5/src/clean.py`).

Python strings are embedded as lists of characters (`Str`); Python `None`
is `Option.none`; Python dicts appearing in the code are embedded either
as fixed-field structures (entry/record dicts with a known key set) or as
association lists with overwrite-or-append update (the detail-page
label/value map).  HTML parsing (BeautifulSoup) is abstracted away: the
scraping functions receive the already-extracted row/anchor/badge texts,
and the network is abstracted as an oracle function from the request key
(page number or result id) to the parsed response, with `none` standing
for any fetch failure (non-200, connection error, timeout), which the
source collapses into a single failure path.
-/

set_option maxHeartbeats 1000000

namespace GradCafe

/-- Python strings, embedded as lists of characters. -/
abbrev Str := List Char

/-- Coerce a Lean string literal into the embedding's string type. -/
def str (x : String) : Str := x.toList

/-- Python `prefix in`-style `str.startswith`: case-sensitive prefix test. -/
def startsWith : Str → Str → Bool
  | [], _ => true
  | _ :: _, [] => false
  | p :: ps, c :: cs => p == c && startsWith ps cs

/-- Python `str.strip()`: drop whitespace from both ends. -/
def pyStrip (x : Str) : Str :=
  ((x.dropWhile Char.isWhitespace).reverse.dropWhile Char.isWhitespace).reverse

/-- Python `str.rstrip(",")`: drop trailing comma characters. -/
def rstripComma (x : Str) : Str :=
  (x.reverse.dropWhile (fun c => c == ',')).reverse

/-- A nonempty all-digit string parsed as a natural number
(the digit-run core of Python `int()`). -/
def parseNatDigits (x : Str) : Option Nat :=
  if x = [] then none
  else if x.all Char.isDigit then
    some (x.foldl (fun a c => a * 10 + (c.toNat - '0'.toNat)) 0)
  else none

/-- Python `int()` on the strings this pipeline feeds it: an optional
minus sign followed by decimal digits; anything else raises `ValueError`,
embedded as `none`. -/
def parseInt (x : Str) : Option Int :=
  match x with
  | '-' :: rest => (parseNatDigits rest).map (fun n => -(n : Int))
  | _ => (parseNatDigits x).map (fun n => (n : Int))

/-- Split a string around the first occurrence of `pat`, returning the
text before and after it, or `none` when `pat` does not occur.  This is
the core of Python `str.split(pat)`: `split(pat)[0]` is the first
component and, when it exists, `split(pat)[1]` is the second component up
to the next occurrence. -/
def findSplit (pat : Str) : Str → Option (Str × Str)
  | [] => if pat = [] then some ([], []) else none
  | c :: rest =>
    if pat.isPrefixOf (c :: rest) then some ([], (c :: rest).drop pat.length)
    else
      match findSplit pat rest with
      | some (pre, post) => some (c :: pre, post)
      | none => none

/-- Python `s.split(pat)[1]`: the segment between the first and second
occurrences of `pat` (to the end when there is no second occurrence);
`none` when `pat` does not occur at all (`IndexError`). -/
def splitSecond (pat : Str) (x : Str) : Option Str :=
  match findSplit pat x with
  | none => none
  | some (_, post) =>
    match findSplit pat post with
    | some (pre2, _) => some pre2
    | none => some post

/-- Fuelled worker for `replaceAll`; each step consumes at least one
character of a nonempty pattern, so `x.length` fuel is enough. -/
def replaceAllF (pat repl : Str) : Nat → Str → Str
  | 0, x => x
  | fuel + 1, x =>
    match findSplit pat x with
    | none => x
    | some (pre, post) => pre ++ repl ++ replaceAllF pat repl fuel post

/-- Python `str.replace(pat, repl)` for the nonempty patterns used by the
scraper: replace every occurrence, scanning left to right. -/
def replaceAll (pat repl x : Str) : Str := replaceAllF pat repl x.length x

/-- Case-insensitive character equality, as under `re.IGNORECASE`. -/
def eqIC (a b : Char) : Bool := a.toLower == b.toLower

/-- Case-insensitive prefix test over the embedding's strings. -/
def isPrefixOfIC : Str → Str → Bool
  | [], _ => true
  | _ :: _, [] => false
  | a :: as, b :: bs => eqIC a b && isPrefixOfIC as bs

/-- The season alternatives of the term regex, in the order written in
`scrape.py`. -/
def seasonAlts : List Str :=
  [str "Fall", str "Spring", str "Summer", str "Winter",
   str "F", str "S", str "Su", str "W"]

/-- `re.compile(r"^(Fall|Spring|Summer|Winter|F|S|Su|W)\s*\d{2,4}$",
re.IGNORECASE).match(text)`: some alternative is a case-insensitive
prefix and the remainder, after optional whitespace, is two to four
digits running to the end of the string. -/
def termMatch (x : Str) : Bool :=
  seasonAlts.any fun alt =>
    isPrefixOfIC alt x &&
      (let rest := (x.drop alt.length).dropWhile Char.isWhitespace
       decide (2 ≤ rest.length) && decide (rest.length ≤ 4) && rest.all Char.isDigit)

/-- The `record_data` dict built by `_parse_badges_row`: a Python dict
with at most the four fixed keys `"term"`, `"GRE Score"`,
`"GRE V Score"`, `"GRE AW"`. -/
structure BadgeData where
  term : Option Str := none
  greScore : Option Str := none
  greVScore : Option Str := none
  greAW : Option Str := none
deriving DecidableEq

/-- One iteration of the badge loop of `_parse_badges_row`: classify one
badge text and store it, later badges overwriting earlier ones. -/
def classifyBadge (rd : BadgeData) (text : Str) : BadgeData :=
  if termMatch text then { rd with term := some text }
  else if startsWith (str "GRE ") text &&
      !(startsWith (str "GRE V") text || startsWith (str "GRE AW") text) then
    { rd with greScore := some (pyStrip (replaceAll (str "GRE") [] text)) }
  else if startsWith (str "GRE V") text then
    { rd with greVScore := some (pyStrip (replaceAll (str "GRE V") [] text)) }
  else if startsWith (str "GRE AW") text then
    { rd with greAW := some (pyStrip (replaceAll (str "GRE AW") [] text)) }
  else rd

/-- `_parse_badges_row`: fold the classifier over the badge texts of the
row (the stripped texts of its `div.tw-inline-flex` elements). -/
def parse_badges_row (badges : List Str) : BadgeData :=
  badges.foldl classifyBadge {}

/-- A StubRecord: the entry dict built by `scrape_survey_page`
(`{"id", "date_added"}` updated with the badge data). -/
structure Stub where
  id : Int
  date_added : Option Str
  term : Option Str := none
  greScore : Option Str := none
  greVScore : Option Str := none
  greAW : Option Str := none
deriving DecidableEq

/-- One parsed listing-table row, as seen after HTML parsing: the hrefs
of its anchors, the badge texts it carries, and the text of its third
`td` cell when present. -/
structure Row where
  anchors : List Str
  badges : List Str
  dateCell : Option Str
deriving DecidableEq

/-- `row.select_one("a[href^='/result/']")`: the first anchor href
starting with `/result/`. -/
def findResultAnchor (row : Row) : Option Str :=
  row.anchors.find? (fun h => (str "/result/").isPrefixOf h)

/-- `_parse_entry_id_and_date`: parse the numeric id out of the href
(`href.split("/result/")[1].split("#")[0]` fed to `int()`), returning
`(None, None)` when any step raises. -/
def parse_entry_id_and_date (href : Str) (dateCell : Option Str) :
    Option Int × Option Str :=
  match splitSecond (str "/result/") href with
  | none => (none, none)
  | some seg =>
    match parseInt (seg.takeWhile (fun c => c != '#')) with
    | none => (none, none)
    | some n => (some n, dateCell)

/-- The entry built for one record row: `{"id": result_id, "date_added":
date_added}` updated with the badge data, emitted only when `result_id`
is truthy (non-`None` and nonzero). -/
def entryOf (href : Str) (dateCell : Option Str) (rd : BadgeData) : List Stub :=
  match parse_entry_id_and_date href dateCell with
  | (some n, date) =>
    if n ≠ 0 then
      [{ id := n, date_added := date, term := rd.term, greScore := rd.greScore,
         greVScore := rd.greVScore, greAW := rd.greAW }]
    else []
  | (none, _) => []

/-- The row loop of `scrape_survey_page`: a row without a record anchor
advances one row; a row with one consumes itself and the following badge
row. -/
def scanRows : List Row → List Stub
  | [] => []
  | row :: rest =>
    match findResultAnchor row with
    | none => scanRows rest
    | some href =>
      match rest with
      | [] => entryOf href row.dateCell {}
      | badgeRow :: rest2 =>
        entryOf href row.dateCell (parse_badges_row badgeRow.badges) ++ scanRows rest2

/-- `scrape_survey_page`, with the fetch-and-parse of the listing page
abstracted as its outcome: `none` for any fetch failure (non-200 status,
connection error, timeout — the source returns `[]` on each), `some rows`
for a successfully parsed page. -/
def scrape_survey_page (fetched : Option (List Row)) : List Stub :=
  match fetched with
  | none => []
  | some rows => scanRows rows

/-- `_parse_decision_date`'s regex step: does the string begin with a
`\d{2}/\d{2}/\d{4}`-shaped substring? -/
def matchesDate : Str → Bool
  | d1 :: d2 :: s1 :: d3 :: d4 :: s2 :: y1 :: y2 :: y3 :: y4 :: _ =>
    d1.isDigit && d2.isDigit && s1 == '/' && d3.isDigit && d4.isDigit &&
      s2 == '/' && y1.isDigit && y2.isDigit && y3.isDigit && y4.isDigit
  | _ => false

/-- `re.search(r"\d{2}/\d{2}/\d{4}", s)`: the leftmost ten-character
match, scanning positions left to right. -/
def searchDate : Str → Option Str
  | [] => none
  | c :: rest =>
    if matchesDate (c :: rest) then some ((c :: rest).take 10)
    else searchDate rest

/-- `_parse_decision_date`: `None` in, or an empty string, yields `None`;
otherwise the first `DD/MM/YYYY`-shaped substring, or `None` when the
regex finds nothing. -/
def parse_decision_date : Option Str → Option Str
  | none => none
  | some x => if x = [] then none else searchDate x

/-- A Python dict with string keys, embedded as an association list in
insertion order.  Values are `Option Str` because the overlay step of
`scrape_page` stores Python `None` under some keys. -/
abbrev Map := List (Str × Option Str)

/-- `d[k] = v` on a Python dict: overwrite in place when the key exists,
append otherwise.  Duplicate keys never arise: every map is built from
`[]` by this operation. -/
def mapSet : Map → Str → Option Str → Map
  | [], k, v => [(k, v)]
  | p :: rest, k, v => if p.1 = k then (k, v) :: rest else p :: mapSet rest k v

/-- `d.get(k)` on a Python dict: `none` when the key is absent,
`some v` (where `v` may itself embed Python `None`) when present. -/
def mapGet : Map → Str → Option (Option Str)
  | [], _ => none
  | p :: rest, k => if p.1 = k then some p.2 else mapGet rest k

/-- The `pairs` dict built from the detail page's `dl > div` blocks:
each block's stripped `dt` text maps to its stripped `dd` text. -/
def dictOf (blocks : List (Str × Str)) : Map :=
  blocks.foldl (fun m kv => mapSet m kv.1 (some kv.2)) []

/-- A DetailRecord: the `{"id", "url", "data"}` dict returned by
`scrape_page`. -/
structure DetailRecord where
  id : Int
  url : Str
  data : Map
deriving DecidableEq

/-- Decimal rendering of an integer, as in the f-string building the
detail URL. -/
def intToStr (i : Int) : Str :=
  if i < 0 then '-' :: Nat.toDigits 10 i.natAbs else Nat.toDigits 10 i.natAbs

/-- `f"https://www.thegradcafe.com/result/{page_id}"`. -/
def resultUrl (i : Int) : Str := str "https://www.thegradcafe.com/result/" ++ intToStr i

/-- The five keys `scrape_page` overlays from the stub entry. -/
def kDateAdded : Str := str "Date Added"

/-- The stub-overlay key for the term badge. -/
def kTerm : Str := str "Term"

/-- The stub-overlay key for the GRE total badge. -/
def kGRE : Str := str "GRE Score"

/-- The stub-overlay key for the GRE verbal badge. -/
def kGREV : Str := str "GRE V Score"

/-- The stub-overlay key for the GRE analytical-writing badge. -/
def kGREAW : Str := str "GRE AW"

/-- `scrape_page`, with the fetch-and-parse of the detail page abstracted
as an oracle from the result id to the parsed `dt`/`dd` label-value pairs
(`none` embeds every failure path of the `try` block: non-200, HTTP
error, any parsing exception).  On success the stub's five inline fields
are overlaid on the parsed map, and the record dict is returned. -/
def scrape_page (fetch : Int → Option (List (Str × Str))) (e : Stub) :
    Option DetailRecord :=
  match fetch e.id with
  | none => none
  | some blocks =>
    let pairs := dictOf blocks
    let pairs := mapSet pairs kDateAdded e.date_added
    let pairs := mapSet pairs kTerm e.term
    let pairs := mapSet pairs kGRE e.greScore
    let pairs := mapSet pairs kGREV e.greVScore
    let pairs := mapSet pairs kGREAW e.greAW
    some { id := e.id, url := resultUrl e.id, data := pairs }

/-- Python truthiness of `max_id` in `if max_id:`: false for `None` and
for zero. -/
def truthyId : Option Int → Bool
  | none => false
  | some m => m != 0

/-- The watermark filter of `scrape_new_entries`: applied only when
`max_id` is truthy, it keeps the stubs with `id > max_id`. -/
def applyWatermark (maxId : Option Int) (l : List Stub) : List Stub :=
  match maxId with
  | some m => if m ≠ 0 then l.filter (fun e => decide (m < e.id)) else l
  | none => l

/-- The Scanning loop of `scrape_new_entries`: while fewer than
`targetCount` stubs are collected, scan the next `batchSize` pages in
order, flatten, filter by the watermark, stop on an empty filtered batch,
otherwise append and advance. -/
def scanLoop (pages : Nat → List Stub) (maxId : Option Int)
    (targetCount batchSize : Nat) (pageNum : Nat) (acc : List Stub) : List Stub :=
  if h : acc.length < targetCount then
    let batch := ((List.range batchSize).map (fun j => pages (pageNum + j))).flatten
    let filtered := applyWatermark maxId batch
    if hf : filtered.isEmpty then acc
    else scanLoop pages maxId targetCount batchSize (pageNum + batchSize) (acc ++ filtered)
  else acc
termination_by targetCount - acc.length
decreasing_by
  simp only [List.isEmpty_iff] at hf
  have hpos : 0 <
      (applyWatermark maxId
        ((List.map (fun j => pages (pageNum + j)) (List.range batchSize)).flatten)).length :=
    List.length_pos.mpr hf
  simp only [List.length_append]
  omega

/-- `scrape_new_entries`: run the Scanning loop from page 1, truncate to
`targetCount`, fetch every detail page, and drop the failed fetches.
The page s canner and detail fetcher are the oracle parameters `pages`
and `fetch`. -/
def scrape_new_entries (pages : Nat → List Stub)
    (fetch : Int → Option (List (Str × Str)))
    (maxId : Option Int) (targetCount batchSize : Nat) : List DetailRecord :=
  let allEntries := scanLoop pages maxId targetCount batchSize 1 []
  let allEntries := allEntries.take targetCount
  (allEntries.map (scrape_page fetch)).filterMap id

/-- Python truthiness of an optional string (`if value:`): false for
`None` and for the empty string. -/
def truthyStr : Option Str → Bool
  | none => false
  | some x => x != []

/-- The inner label loop of `_build_record`: walk the candidate labels;
when the raw value under a label is non-`None` and has a non-whitespace
character, run the text extraction and stop as soon as it yields a truthy
value.  The last extraction result is kept even when falsy. -/
def fieldLoop (extract : Str → Str → Option Str) (pairs : Map) :
    List Str → Option Str → Option Str
  | [], v => v
  | label :: labels, v =>
    match mapGet pairs label with
    | some (some raw) =>
      if pyStrip raw ≠ [] then
        let v2 := extract raw label
        if truthyStr v2 then v2 else fieldLoop extract pairs labels v2
      else fieldLoop extract pairs labels v
    | _ => fieldLoop extract pairs labels v

/-- `_build_record`'s per-field value: the label loop started from
`value = None`. -/
def fieldValue (extract : Str → Str → Option Str) (pairs : Map)
    (labels : List Str) : Option Str :=
  fieldLoop extract pairs labels none

/-- The record dict built by `clean_data`: the fourteen `FIELD_MAP`
fields plus the `URL` key added afterwards. -/
structure CleanRecord where
  program : Option Str
  university : Option Str
  comments : Option Str
  date_added : Option Str
  applicant_status : Option Str
  acceptance_date : Option Str
  rejection_date : Option Str
  term : Option Str
  usInternational : Option Str
  greScore : Option Str
  greVScore : Option Str
  degree : Option Str
  gpa : Option Str
  greAW : Option Str
  url : Option Str
deriving DecidableEq

/-- `_build_record`: one `fieldValue` per `FIELD_MAP` entry, with the
label lists exactly as in the source. -/
def build_record (extract : Str → Str → Option Str) (pairs : Map) : CleanRecord :=
  { program := fieldValue extract pairs [str "Program"]
  , university := fieldValue extract pairs [str "Institution"]
  , comments := fieldValue extract pairs [str "Notes"]
  , date_added := fieldValue extract pairs [str "Date Added"]
  , applicant_status := fieldValue extract pairs [str "Decision", str "Status"]
  , acceptance_date := fieldValue extract pairs [str "Notification"]
  , rejection_date := fieldValue extract pairs [str "Notification"]
  , term := fieldValue extract pairs [str "Term"]
  , usInternational := fieldValue extract pairs [str "Degree\x27s Country of Origin"]
  , greScore := fieldValue extract pairs [str "GRE Score"]
  , greVScore := fieldValue extract pairs [str "GRE V Score"]
  , degree := fieldValue extract pairs [str "Degree Type"]
  , gpa := fieldValue extract pairs [str "Undergrad GPA"]
  , greAW := fieldValue extract pairs [str "GRE AW"]
  , url := none }

/-- `_combine_program_and_university`:
`f"{program}, {university}".strip().rstrip(",")`, with `None` fields
replaced by the empty string first. -/
def combine_program_and_university (r : CleanRecord) : Str :=
  rstripComma (pyStrip ((r.program.getD []) ++ str ", " ++ (r.university.getD [])))

/-- `_apply_decision_logic`: populate the date matching the decision from
the raw `Notification` value and null the other; null both for any other
decision. -/
def apply_decision_logic (r : CleanRecord) (pairs : Map) : CleanRecord :=
  let notification : Option Str := (mapGet pairs (str "Notification")).join
  if r.applicant_status = some (str "Accepted") then
    { r with acceptance_date := parse_decision_date notification,
             rejection_date := none }
  else if r.applicant_status = some (str "Rejected") then
    { r with rejection_date := parse_decision_date notification,
             acceptance_date := none }
  else
    { r with rejection_date := none, acceptance_date := none }

/-- The loop body of `clean_data` on one raw entry: build the record,
overwrite `program` with the combined string, copy the URL, then apply
the decision logic.  The BeautifulSoup text extraction
`_extract_label_text` is abstracted as the oracle `extract` taking the
raw value and the label. -/
def clean_record (extract : Str → Str → Option Str) (entry : DetailRecord) :
    CleanRecord :=
  let pairs := entry.data
  let r := build_record extract pairs
  let r := { r with program := some (combine_program_and_university r) }
  let r := { r with url := some entry.url }
  apply_decision_logic r pairs

/-- `clean_data`: clean every raw entry and trim the list to
`target_count`. -/
def clean_data (extract : Str → Str → Option Str)
    (rawEntries : List DetailRecord) (targetCount : Nat) : List CleanRecord :=
  (rawEntries.map (clean_record extract)).take targetCount

/-! Concrete fixtures used by witnesses and counterexamples. -/

/-- A stub with id 5 and no inline fields. -/
def stub5 : Stub := { id := 5, date_added := none }

/-- A one-record source: page 1 carries `stub5`, every other page is
empty. -/
def pagesOne : Nat → List Stub := fun n => if n = 1 then [stub5] else []

/-- A gapped source: page 1 is empty, page 2 carries `stub5`, every
other page is empty. -/
def pagesGap : Nat → List Stub := fun n => if n = 2 then [stub5] else []

/-- A detail fetcher that always succeeds with an empty label map. -/
def fetchAll : Int → Option (List (Str × Str)) := fun _ => some []

/-- A stub with id 7 carrying a date and a term badge. -/
def stub7 : Stub :=
  { id := 7, date_added := some (str "May 05, 2025"), term := some (str "Fall 2025") }

/-- A detail fetcher serving one parsed detail page for id 7. -/
def fetch7 : Int → Option (List (Str × Str)) :=
  fun i => if i = 7 then some [(str "Program", str "CS"), (str "Decision", str "Accepted")] else none

/-- The detail record `scrape_page` builds for `stub7` against `fetch7`. -/
def detail7 : DetailRecord := (scrape_page fetch7 stub7).getD { id := 0, url := [], data := [] }

/-! Helper lemmas. -/

/-- Reading a key after a dict update: the updated key returns the new
value, every other key is unaffected. -/
lemma mapGet_mapSet (m : Map) (k k' : Str) (v : Option Str) :
    mapGet (mapSet m k v) k' = if k' = k then some v else mapGet m k' := by
  induction m with
  | nil =>
    by_cases h : k' = k
    · simp [mapSet, mapGet, h]
    · have hk : ¬ k = k' := fun hh => h hh.symm
      simp [mapSet, mapGet, h, hk]
  | cons p rest ih =>
    by_cases hpk : p.1 = k
    · by_cases h : k' = k
      · subst h
        simp [mapSet, mapGet, hpk]
      · have hk : ¬ k = k' := fun hh => h hh.symm
        have hpk' : ¬ p.1 = k' := by rw [hpk]; exact hk
        simp [mapSet, mapGet, hpk, h, hpk', hk]
    · by_cases h : p.1 = k'
      · have hk : ¬ k' = k := fun hh => hpk (h.trans hh)
        simp [mapSet, mapGet, hpk, h, hk]
      · simp [mapSet, mapGet, hpk, h, ih]

/-! Claim theorems. -/

/-- C8: for every stub and every successfully fetched detail page, the
merged field map contains the five stub-sourced keys with the stub's
values, and every other key's value is exactly the one in the dict built
from the detail page's parsed label/value pairs. -/
theorem detail_overlay (fetch : Int → Option (List (Str × Str))) (e : Stub)
    (d : DetailRecord) (h : scrape_page fetch e = some d) :
    mapGet d.data kDateAdded = some e.date_added ∧
    mapGet d.data kTerm = some e.term ∧
    mapGet d.data kGRE = some e.greScore ∧
    mapGet d.data kGREV = some e.greVScore ∧
    mapGet d.data kGREAW = some e.greAW ∧
    ∀ k, k ≠ kDateAdded → k ≠ kTerm → k ≠ kGRE → k ≠ kGREV → k ≠ kGREAW →
      mapGet d.data k = mapGet (dictOf ((fetch e.id).getD [])) k := by
  have h12 : kDateAdded ≠ kTerm := by decide
  have h13 : kDateAdded ≠ kGRE := by decide
  have h14 : kDateAdded ≠ kGREV := by decide
  have h15 : kDateAdded ≠ kGREAW := by decide
  have h23 : kTerm ≠ kGRE := by decide
  have h24 : kTerm ≠ kGREV := by decide
  have h25 : kTerm ≠ kGREAW := by decide
  have h34 : kGRE ≠ kGREV := by decide
  have h35 : kGRE ≠ kGREAW := by decide
  have h45 : kGREV ≠ kGREAW := by decide
  cases hfe : fetch e.id with
  | none => simp [scrape_page, hfe] at h
  | some blocks =>
    rw [scrape_page, hfe] at h
    simp only [Option.some.injEq] at h
    subst h
    refine ⟨?_, ?_, ?_, ?_, ?_, ?_⟩
    · simp [mapGet_mapSet, h12, h13, h14, h15]
    · simp [mapGet_mapSet, h23, h24, h25]
    · simp [mapGet_mapSet, h34, h35]
    · simp [mapGet_mapSet, h45]
    · simp [mapGet_mapSet]
    · intro k k1 k2 k3 k4 k5
      simp [mapGet_mapSet, k1, k2, k3, k4, k5, hfe]

/-- Witness for C8: the merged map of `detail7` carries `stub7`'s date
and term under the overlay keys. -/
theorem detail_overlay_witness :
    mapGet detail7.data kDateAdded = some stub7.date_added ∧
    mapGet detail7.data kTerm = some stub7.term := by
  have h := detail_overlay fetch7 stub7 detail7 (by decide)
  exact ⟨h.1, h.2.1⟩

/-- A listing row with no record anchor. -/
def rowBlank : Row := { anchors := [], badges := [], dateCell := none }

/-- A listing row whose anchor carries a negative id. -/
def rowNeg : Row := { anchors := [str "/result/-3"], badges := [], dateCell := none }

/-- A listing row whose anchor points at result 5. -/
def rowFive : Row := { anchors := [str "/result/5"], badges := [], dateCell := none }

/-- A listing page that names result 5 twice and result -3 once. -/
def pageDup : List Row := [rowNeg, rowBlank, rowFive, rowBlank, rowFive]

/-- Scanning a row list with no record anchors yields no stubs. -/
lemma scanRows_eq_nil_of_no_anchor :
    ∀ rows, (∀ r ∈ rows, findResultAnchor r = none) → scanRows rows = []
  | [], _ => rfl
  | r :: rest, h => by
    have hr := h r (by simp)
    simp only [scanRows, hr]
    exact scanRows_eq_nil_of_no_anchor rest (fun r' hr' => h r' (by simp [hr']))

/-- C9: any page/network failure makes the Listing Scanner return the
empty list, the same value a valid page with zero record rows
produces; the model is a total function, so nothing is raised. -/
theorem scan_failure_empty (rows : List Row)
    (hnorec : ∀ r ∈ rows, findResultAnchor r = none) :
    scrape_survey_page none = [] ∧ scrape_survey_page (some rows) = [] :=
  ⟨rfl, scanRows_eq_nil_of_no_anchor rows hnorec⟩

/-- Witness for C9: a failed fetch and a one-row page without record
anchors both scan to the empty list. -/
theorem scan_failure_empty_witness :
    scrape_survey_page none = [] ∧ scrape_survey_page (some [rowBlank]) = [] :=
  scan_failure_empty [rowBlank] (by decide)

/-- Counterexample for C7: a page naming result 5 in two record rows and
result -3 in another yields stub ids `[-3, 5, 5]` — neither all positive
nor unique within the page. -/
theorem listing_ids_counterexample :
    ((scrape_survey_page (some pageDup)).map Stub.id) = [-3, 5, 5] ∧
    ¬ ((scrape_survey_page (some pageDup)).map Stub.id).Nodup :=
  ⟨by decide, by decide⟩

/-- Every stub `entryOf` emits carries a nonzero id. -/
lemma entryOf_id_nonzero (href : Str) (dc : Option Str) (rd : BadgeData)
    (e : Stub) (he : e ∈ entryOf href dc rd) : e.id ≠ 0 := by
  unfold entryOf at he
  rcases hp : parse_entry_id_and_date href dc with ⟨oid, date⟩
  rw [hp] at he
  cases oid with
  | none => simp at he
  | some n =>
    dsimp only [] at he
    by_cases hn : n = 0
    · subst hn
      simp at he
    · rw [if_pos hn] at he
      simp only [List.mem_singleton] at he
      subst he
      exact hn

/-- Every stub the row loop emits carries a nonzero id. -/
lemma scanRows_ids_nonzero : ∀ rows, ∀ e ∈ scanRows rows, e.id ≠ 0
  | [] => by simp [scanRows]
  | row :: rest => by
    intro e he
    rw [scanRows] at he
    cases hfa : findResultAnchor row with
    | none =>
      rw [hfa] at he
      exact scanRows_ids_nonzero rest e he
    | some href =>
      rw [hfa] at he
      cases rest with
      | nil => exact entryOf_id_nonzero _ _ _ _ he
      | cons br rest2 =>
        rcases List.mem_append.mp he with h1 | h2
        · exact entryOf_id_nonzero _ _ _ _ h1
        · exact scanRows_ids_nonzero rest2 e h2

/-- C7 amended: every StubRecord the Listing Scanner produces has a
nonzero integer id (the parser drops a zero id as falsy); ids are not
deduplicated within a page and are negative when the href carries a
negative number. -/
theorem listing_ids_nonzero (fetched : Option (List Row)) :
    ∀ e ∈ scrape_survey_page fetched, e.id ≠ 0 := by
  cases fetched with
  | none => simp [scrape_survey_page]
  | some rows => exact scanRows_ids_nonzero rows

/-- Witness for C7's amended theorem: the stub scanned from a page
naming result 5 has a nonzero id. -/
theorem listing_ids_nonzero_witness : stub5.id ≠ 0 :=
  listing_ids_nonzero (some [rowFive]) stub5 (by decide)

/-- A successful case-sensitive prefix test decomposes the string. -/
lemma startsWith_append : ∀ p x, startsWith p x = true → ∃ rest, x = p ++ rest
  | [], x, _ => ⟨x, rfl⟩
  | _ :: _, [], h => by simp [startsWith] at h
  | a :: as, b :: bs, h => by
    simp only [startsWith, Bool.and_eq_true, beq_iff_eq] at h
    obtain ⟨rest, hr⟩ := startsWith_append as bs h.2
    exact ⟨rest, by simp [h.1, hr]⟩

/-- C5: a badge text beginning with `"GRE AW"` is classified into the
`"GRE AW"` slot — not the GRE-total slot, although it also begins with
`"GRE "` — leaving every other slot unchanged: the exclusion guard on the
generic `"GRE "` branch gives the AW prefix precedence. -/
theorem badge_aw_precedence (rd : BadgeData) (text : Str)
    (h : startsWith (str "GRE AW") text = true) :
    classifyBadge rd text =
      { rd with greAW := some (pyStrip (replaceAll (str "GRE AW") [] text)) } := by
  obtain ⟨rest, hr⟩ := startsWith_append _ _ h
  have f1 : termMatch ('G' :: 'R' :: 'E' :: ' ' :: 'A' :: 'W' :: rest) = false := by
    simp [termMatch, seasonAlts, isPrefixOfIC,
      show eqIC 'F' 'G' = false from by decide,
      show eqIC 'S' 'G' = false from by decide,
      show eqIC 'W' 'G' = false from by decide]
  have f3 : startsWith (str "GRE V") ('G' :: 'R' :: 'E' :: ' ' :: 'A' :: 'W' :: rest) = false := by
    simp [startsWith, str, show ('V' == 'A') = false from by decide]
  have f4 : startsWith (str "GRE AW") ('G' :: 'R' :: 'E' :: ' ' :: 'A' :: 'W' :: rest) = true := by
    simp [startsWith, str]
  rw [hr, show str "GRE AW" ++ rest = 'G' :: 'R' :: 'E' :: ' ' :: 'A' :: 'W' :: rest from rfl]
  simp [classifyBadge, f1, f3, f4]

/-- Witness for C5: the badge `"GRE AW 4.5"` lands in the AW slot with
value `"4.5"` and leaves the GRE-total slot empty. -/
theorem badge_aw_precedence_witness :
    (classifyBadge {} (str "GRE AW 4.5")).greAW = some (str "4.5") ∧
    (classifyBadge {} (str "GRE AW 4.5")).greScore = none := by
  have h := badge_aw_precedence {} (str "GRE AW 4.5") (by decide)
  rw [h]
  exact ⟨by decide, rfl⟩

/-- A text extractor that echoes the raw value unchanged. -/
def extract0 : Str → Str → Option Str := fun raw _ => some raw

/-- An accepted entry whose notification carries no date-shaped text. -/
def entryAcc : DetailRecord :=
  { id := 1, url := str "https://www.thegradcafe.com/result/1",
    data := [(str "Decision", some (str "Accepted")),
             (str "Notification", some (str "soon"))] }

/-- Counterexample for C1: an entry whose status extracts to
`"Accepted"` but whose notification holds no `DD/MM/YYYY` substring ends
with both dates null, so neither date is non-null. -/
theorem decision_dates_counterexample :
    (clean_record extract0 entryAcc).applicant_status = some (str "Accepted") ∧
    (clean_record extract0 entryAcc).acceptance_date = none ∧
    (clean_record extract0 entryAcc).rejection_date = none := by decide

/-- C1 amended: the normalized status is the extracted decision field;
`acceptance_date` is the first `DD/MM/YYYY` substring of the raw
notification exactly when the status is `"Accepted"` (null when the
regex finds none), `rejection_date` likewise for `"Rejected"`, and each
is null in every other case. -/
theorem decision_dates (extract : Str → Str → Option Str) (entry : DetailRecord) :
    (clean_record extract entry).applicant_status =
      (build_record extract entry.data).applicant_status ∧
    (clean_record extract entry).acceptance_date =
      (if (build_record extract entry.data).applicant_status = some (str "Accepted")
       then parse_decision_date ((mapGet entry.data (str "Notification")).join)
       else none) ∧
    (clean_record extract entry).rejection_date =
      (if (build_record extract entry.data).applicant_status = some (str "Rejected")
       then parse_decision_date ((mapGet entry.data (str "Notification")).join)
       else none) := by
  dsimp only [clean_record, apply_decision_logic]
  refine ⟨?_, ?_, ?_⟩ <;> split <;> (try split) <;>
    simp_all [show str "Rejected" ≠ str "Accepted" from by decide]

/-- Witness for C1's amended theorem: the accepted entry with a
date-free notification keeps status `"Accepted"` and both dates null. -/
theorem decision_dates_witness :
    (clean_record extract0 entryAcc).applicant_status = some (str "Accepted") ∧
    (clean_record extract0 entryAcc).acceptance_date = none := by
  have h := decision_dates extract0 entryAcc
  refine ⟨h.1.trans (by decide), h.2.1.trans ?_⟩
  rw [if_pos (by decide)]
  decide

/-- C2: the normalizer never leaves both decision dates non-null. -/
theorem dates_mutually_exclusive (extract : Str → Str → Option Str)
    (entry : DetailRecord) :
    (clean_record extract entry).acceptance_date = none ∨
    (clean_record extract entry).rejection_date = none := by
  dsimp only [clean_record, apply_decision_logic]
  split
  · right; rfl
  · split
    · left; rfl
    · left; rfl

/-- A text extractor that extracts the empty string from the raw
`Program` markup and echoes everything else. -/
def extractC : Str → Str → Option Str :=
  fun raw label => if label = str "Program" then some [] else some raw

/-- An entry whose program extracts to the empty string and whose
university extracts to `"MIT"`. -/
def entryMIT : DetailRecord :=
  { id := 2, url := str "https://www.thegradcafe.com/result/2",
    data := [(str "Program", some (str "x")),
             (str "Institution", some (str "MIT"))] }

/-- Counterexample for C6: with an empty program and university
`"MIT"`, the combined field is not `"MIT"`. -/
theorem combine_empty_program_counterexample :
    (clean_record extractC entryMIT).program ≠ some (str "MIT") := by decide

/-- C6 amended: with an empty program and university `"MIT"`, the
combined field is `", MIT"` — `strip().rstrip(",")` removes surrounding
whitespace and trailing commas only, so an empty program leaves the
leading comma and space in place. -/
theorem combine_empty_program :
    (clean_record extractC entryMIT).university = some (str "MIT") ∧
    (clean_record extractC entryMIT).program = some (str ", MIT") := by decide

/-- The Scanning loop behaves identically under a zero watermark and no
watermark: both make the filter guard falsy. -/
lemma scanLoop_zero_eq (pages : Nat → List Stub) (t b : Nat) :
    ∀ p acc, scanLoop pages (some 0) t b p acc = scanLoop pages none t b p acc := by
  intro p acc
  induction p, acc using scanLoop.induct pages (some 0) t b with
  | case1 pageNum acc hlt batch filtered hemp =>
    rw [scanLoop, scanLoop]
    rw [dif_pos hlt, dif_pos hlt]
    dsimp only []
    rw [show applyWatermark none ((List.map (fun j => pages (pageNum + j)) (List.range b)).flatten)
        = applyWatermark (some 0) ((List.map (fun j => pages (pageNum + j)) (List.range b)).flatten)
        from rfl]
    rw [dif_pos hemp, dif_pos hemp]
  | case2 pageNum acc hlt batch filtered hemp ih =>
    rw [scanLoop, scanLoop]
    rw [dif_pos hlt, dif_pos hlt]
    dsimp only []
    rw [show applyWatermark none ((List.map (fun j => pages (pageNum + j)) (List.range b)).flatten)
        = applyWatermark (some 0) ((List.map (fun j => pages (pageNum + j)) (List.range b)).flatten)
        from rfl]
    rw [dif_neg hemp, dif_neg hemp]
    exact ih
  | case3 pageNum acc hlt =>
    rw [scanLoop, scanLoop]
    rw [dif_neg hlt, dif_neg hlt]

/-- Membership in a watermark-filtered flattened batch lifts to one of
the flattened lists, still watermark-filtered. -/
lemma mem_applyWatermark_flatten {maxId : Option Int} {L : List (List Stub)}
    {e : Stub} (h : e ∈ applyWatermark maxId L.flatten) :
    ∃ l ∈ L, e ∈ applyWatermark maxId l := by
  cases maxId with
  | none =>
    obtain ⟨l, hl, hel⟩ := List.mem_flatten.mp h
    exact ⟨l, hl, hel⟩
  | some m =>
    by_cases hm : m = 0
    · subst hm
      obtain ⟨l, hl, hel⟩ := List.mem_flatten.mp (h : e ∈ L.flatten)
      exact ⟨l, hl, hel⟩
    · unfold applyWatermark at h
      dsimp only [] at h
      rw [if_pos hm] at h
      obtain ⟨hmem, hpred⟩ := List.mem_filter.mp h
      obtain ⟨l, hl, hel⟩ := List.mem_flatten.mp hmem
      refine ⟨l, hl, ?_⟩
      unfold applyWatermark
      dsimp only []
      rw [if_pos hm]
      exact List.mem_filter.mpr ⟨hel, hpred⟩

/-- A stub passing a nonzero watermark filter has id above the
watermark. -/
lemma gt_of_mem_applyWatermark {m : Int} {l : List Stub} {e : Stub}
    (hm : m ≠ 0) (h : e ∈ applyWatermark (some m) l) : m < e.id := by
  unfold applyWatermark at h
  dsimp only [] at h
  rw [if_pos hm] at h
  simpa using (List.mem_filter.mp h).2

/-- Every stub the Scanning loop returns was in the initial accumulator
or survived the watermark filter on some page's output. -/
lemma scanLoop_mem (pages : Nat → List Stub) (maxId : Option Int) (t b : Nat) :
    ∀ p acc, ∀ e ∈ scanLoop pages maxId t b p acc,
      e ∈ acc ∨ ∃ q, e ∈ applyWatermark maxId (pages q) := by
  intro p acc
  induction p, acc using scanLoop.induct pages maxId t b with
  | case1 pageNum acc hlt batch filtered hemp =>
    intro e he
    rw [scanLoop, dif_pos hlt] at he
    dsimp only [] at he
    rw [dif_pos hemp] at he
    exact Or.inl he
  | case2 pageNum acc hlt batch filtered hemp ih =>
    intro e he
    rw [scanLoop, dif_pos hlt] at he
    dsimp only [] at he
    rw [dif_neg hemp] at he
    rcases ih e he with hmem | hq
    · rcases List.mem_append.mp hmem with h1 | h2
      · exact Or.inl h1
      · right
        obtain ⟨l, hl, hel⟩ := mem_applyWatermark_flatten h2
        obtain ⟨j, _, hjl⟩ := List.mem_map.mp hl
        rw [← hjl] at hel
        exact ⟨pageNum + j, hel⟩
    · exact Or.inr hq
  | case3 pageNum acc hlt =>
    intro e he
    rw [scanLoop, dif_neg hlt] at he
    exact Or.inl he

/-- A successful detail fetch keeps the stub's id on the record. -/
lemma scrape_page_id {fetch : Int → Option (List (Str × Str))} {e : Stub}
    {d : DetailRecord} (h : scrape_page fetch e = some d) : d.id = e.id := by
  unfold scrape_page at h
  cases hfe : fetch e.id with
  | none => rw [hfe] at h; exact absurd h (by simp)
  | some blocks =>
    rw [hfe] at h
    dsimp only [] at h
    simp only [Option.some.injEq] at h
    rw [← h]

/-- `filterMap id` keeps the length of a list of options that are all
`some`. -/
lemma length_filterMap_id_all_isSome :
    ∀ l : List (Option DetailRecord), (∀ x ∈ l, x.isSome) →
      (l.filterMap id).length = l.length
  | [], _ => rfl
  | x :: rest, h => by
    have hx := h x (by simp)
    obtain ⟨d, rfl⟩ := Option.isSome_iff_exists.mp hx
    simp only [List.filterMap_cons, id, List.length_cons]
    rw [length_filterMap_id_all_isSome rest (fun y hy => h y (by simp [hy]))]

/-- C3 amended: the crawl returns at most `targetCount` records, and
returns exactly `targetCount` whenever the Scanning loop accumulates at
least `targetCount` filtered stubs (the loop stops short of that on any
empty filtered batch) and every detail fetch succeeds. -/
theorem crawl_truncation (pages : Nat → List Stub)
    (fetch : Int → Option (List (Str × Str)))
    (maxId : Option Int) (t b : Nat) :
    (scrape_new_entries pages fetch maxId t b).length ≤ t ∧
    ((t ≤ (scanLoop pages maxId t b 1 []).length ∧ ∀ i, (fetch i).isSome) →
      (scrape_new_entries pages fetch maxId t b).length = t) := by
  constructor
  · unfold scrape_new_entries
    refine le_trans (List.length_filterMap_le _ _) ?_
    simp [List.length_take]
  · rintro ⟨hscan, hfetch⟩
    unfold scrape_new_entries
    have h2 : ∀ x ∈ ((scanLoop pages maxId t b 1 []).take t).map (scrape_page fetch),
        x.isSome := by
      intro x hx
      obtain ⟨e, _, hxe⟩ := List.mem_map.mp hx
      rw [← hxe]
      unfold scrape_page
      cases hfe : fetch e.id with
      | none => exact absurd (hfe ▸ hfetch e.id) (by simp)
      | some blocks => simp
    rw [length_filterMap_id_all_isSome _ h2, List.length_map, List.length_take]
    omega

/-- Witness for C3's amended theorem: a source with one new record on
page 1 crawled with target 1 yields at most one and exactly one record. -/
theorem crawl_truncation_witness :
    (scrape_new_entries pagesOne fetchAll none 1 1).length ≤ 1 ∧
    (scrape_new_entries pagesOne fetchAll none 1 1).length = 1 := by
  have h := crawl_truncation pagesOne fetchAll none 1 1
  refine ⟨h.1, h.2 ⟨?_, fun i => rfl⟩⟩
  have hs : scanLoop pagesOne none 1 1 1 [] = [stub5] := by
    rw [scanLoop]
    norm_num [show List.range 1 = [0] from rfl, pagesOne, applyWatermark]
    rw [scanLoop]
    norm_num
  rw [hs]
  decide

/-- Counterexample for C3: with one unfiltered record sitting on page 2
behind an empty page 1, a crawl with target 1 and batch 1 stops on the
empty first batch and returns no records, not exactly one. -/
theorem crawl_truncation_counterexample :
    1 ≤ (pagesGap 2).length ∧
    (scrape_new_entries pagesGap fetchAll none 1 1).length = 0 := by
  refine ⟨by decide, ?_⟩
  unfold scrape_new_entries
  have hs : scanLoop pagesGap none 1 1 1 [] = [] := by
    rw [scanLoop]
    norm_num [show List.range 1 = [0] from rfl, pagesGap, applyWatermark]
  rw [hs]
  decide

/-- A stub with id -3, as the Listing Scanner emits for `rowNeg`. -/
def stubNeg : Stub := { id := -3, date_added := none }

/-- A page source realized by the Listing Scanner itself: page 1 carries
the stubs scanned from `pageDup`, every other page is empty. -/
def pagesDup : Nat → List Stub :=
  fun n => if n = 1 then scrape_survey_page (some pageDup) else []

/-- Counterexample for C4: crawling the scanner-realized source for
`pageDup` with the non-null watermark 0 applies no filtering (0 is falsy
in `if max_id:`) and returns a record whose id -3 is not above the
watermark. -/
theorem watermark_law_counterexample :
    ((scrape_new_entries pagesDup fetchAll (some 0) 3 1).headD
      { id := 0, url := [], data := [] }).id < 0 ∧
    (scrape_new_entries pagesDup fetchAll (some 0) 3 1).map DetailRecord.id =
      [-3, 5, 5] := by
  have hpage : pagesDup 1 = [stubNeg, stub5, stub5] := by decide
  have hs : scanLoop pagesDup (some 0) 3 1 1 [] = [stubNeg, stub5, stub5] := by
    rw [scanLoop]
    norm_num [show List.range 1 = [0] from rfl, hpage, applyWatermark]
    rw [scanLoop]
    norm_num
  constructor
  · unfold scrape_new_entries
    rw [hs]
    decide
  · unfold scrape_new_entries
    rw [hs]
    decide

/-- C4 amended: every crawl invoked with a nonzero watermark returns
only DetailRecords with id above the watermark; a watermark of 0,
although non-null, is falsy in the guard `if max_id:`, so it disables
the filter and bounds nothing. -/
theorem watermark_law (pages : Nat → List Stub)
    (fetch : Int → Option (List (Str × Str))) (m : Int) (t b : Nat)
    (hm : m ≠ 0) :
    ∀ d ∈ scrape_new_entries pages fetch (some m) t b, m < d.id := by
  intro d hd
  unfold scrape_new_entries at hd
  rw [List.filterMap_map] at hd
  obtain ⟨e, he, hfe⟩ := List.mem_filterMap.mp hd
  have hid : d.id = e.id := scrape_page_id hfe
  have he2 := List.mem_of_mem_take he
  rcases scanLoop_mem pages (some m) t b 1 [] e he2 with hacc | ⟨q, hq⟩
  · exact absurd hacc (by simp)
  · rw [hid]
    exact gt_of_mem_applyWatermark hm hq

/-- Witness for C4: crawling the one-record source with watermark 2
returns only records with id above 2. -/
theorem watermark_law_witness :
    (2 : Int) <
      ((scrape_new_entries pagesOne fetchAll (some 2) 1 1).headD
        { id := 0, url := [], data := [] }).id := by
  have hs : scanLoop pagesOne (some 2) 1 1 1 [] = [stub5] := by
    rw [scanLoop]
    norm_num [show List.range 1 = [0] from rfl, pagesOne, applyWatermark, stub5]
    rw [scanLoop]
    norm_num
  have hout : scrape_new_entries pagesOne fetchAll (some 2) 1 1 =
      [(scrape_page fetchAll stub5).getD { id := 0, url := [], data := [] }] := by
    unfold scrape_new_entries
    rw [hs]
    decide
  have hmem : ((scrape_new_entries pagesOne fetchAll (some 2) 1 1).headD
      { id := 0, url := [], data := [] }) ∈
      scrape_new_entries pagesOne fetchAll (some 2) 1 1 := by
    rw [hout]
    decide
  exact watermark_law pagesOne fetchAll 2 1 1 (by decide) _ hmem

/-- C10: a zero watermark is falsy in the guard `if max_id:`, so it
applies no filtering and the crawl returns exactly what a null watermark
returns. -/
theorem watermark_zero_eq_none (pages : Nat → List Stub)
    (fetch : Int → Option (List (Str × Str))) (t b : Nat) :
    scrape_new_entries pages fetch (some 0) t b =
      scrape_new_entries pages fetch none t b := by
  unfold scrape_new_entries
  rw [scanLoop_zero_eq]

end GradCafe
